import Mathlib

/-!
Shallow embedding of the agent-swarm orchestrator backend (scheduler,
executor, task reconciler, Copilot adapter quota scan, fuzzy file
suggestion, runner heartbeat), with theorems checking the claims of the
specification against the code.

Conventions of the embedding:
- timestamps are modelled as `Int` seconds (all comparisons in the code
  are order comparisons on UTC datetimes);
- database rows are records, a session is a list of rows, and an update
  through the ORM identity map is a map-by-primary-key over that list;
- filesystem and git probes are oracle functions packaged in an
  environment record (the code only branches on their boolean outcome);
- Python truthiness of a nullable JSON list column is modelled by the
  empty list, and of a nullable string by `Option`.
-/

set_option maxHeartbeats 1000000

/-- Task lifecycle states, as enumerated by the status CHECK constraint
of the tasks table (database.py) and the status literals used across the
backend. -/
inductive TaskStatus
  | TODO
  | RUNNING
  | TO_BE_REVIEW
  | DONE
  | FAILED
deriving DecidableEq, Repr

/-- Error classes recorded on a run, from ErrorClass in models.py. -/
inductive ErrorClass
  | CODE
  | TOOL
  | NETWORK
  | QUOTA
  | UNKNOWN
deriving DecidableEq, Repr

/-- Runner liveness states, from RunnerStatus in models.py. -/
inductive RunnerStatus
  | ONLINE
  | OFFLINE
deriving DecidableEq, Repr

/-- Workspace kinds, from WorkspaceType in models.py. -/
inductive WorkspaceType
  | LOCAL
  | SSH
  | SSH_CONTAINER
deriving DecidableEq, Repr

/-- Membership test of ErrorClass.__members__, keyed by the enum member
name, as used by `error_class_str in ErrorClass.__members__`. -/
def error_class_of_string (s : String) : Option ErrorClass :=
  if s = "CODE" then some ErrorClass.CODE
  else if s = "TOOL" then some ErrorClass.TOOL
  else if s = "NETWORK" then some ErrorClass.NETWORK
  else if s = "QUOTA" then some ErrorClass.QUOTA
  else if s = "UNKNOWN" then some ErrorClass.UNKNOWN
  else none

/-- The task row fields that the claims observe (models.py Task plus the
columns added by the startup migration in database.py). -/
structure DbTask where
  id : Nat
  status : TaskStatus
  prompt : String
  prompt_history : List String
  worktree_path : Option String
  run_id : Option Nat
  model : Option String
  branch_name : Option String
  updated_at : Int
deriving DecidableEq, Repr

/-- The run row fields that the claims observe (models.py Run). -/
structure DbRun where
  run_id : Nat
  ended_at : Option Int
  exit_code : Option Int
  error_class : Option ErrorClass
  log_blob : Option String
  usage_json : Option String
deriving DecidableEq, Repr

/-- The mapping `ErrorClass[error_class_str]` guarded by
`error_class_str and error_class_str in ErrorClass.__members__`, with
UNKNOWN as the fallback (executor.py, _persist_execution_result). -/
def mapped_error_class (s? : Option String) : ErrorClass :=
  match s? with
  | some s => (error_class_of_string s).getD ErrorClass.UNKNOWN
  | none => ErrorClass.UNKNOWN

/-- TaskExecutor._persist_execution_result (executor.py): the single
transaction that writes a run's terminal outcome onto the task and run
rows. `usage_data` is `some` when the adapter captured a non-empty usage
dict (Python truthiness), already serialized. -/
def persist_execution_result (now exit_code : Int) (success : Bool)
    (error_class_str : Option String) (log_blob : String)
    (was_cancelled : Bool) (usage_data : Option String)
    (is_quota_error : Bool) (task : DbTask) (run : DbRun) :
    DbTask × DbRun :=
  let run := { run with ended_at := some now }
  let run :=
    match usage_data with
    | some u => { run with usage_json := some u }
    | none => run
  let tr :=
    if was_cancelled then
      ({ task with status := TaskStatus.FAILED },
       { run with exit_code := some 130,
                  error_class := some ErrorClass.UNKNOWN })
    else if is_quota_error && !success then
      ({ task with status := TaskStatus.FAILED },
       { run with exit_code := some exit_code,
                  error_class := some ErrorClass.QUOTA })
    else if success then
      ({ task with status := TaskStatus.TO_BE_REVIEW },
       { run with exit_code := some exit_code, error_class := none })
    else
      ({ task with status := TaskStatus.FAILED },
       { run with exit_code := some exit_code,
                  error_class := some (mapped_error_class error_class_str) })
  let run := if log_blob ≠ "" then { tr.2 with log_blob := some log_blob } else tr.2
  ({ tr.1 with updated_at := now }, run)

/-- The module-scope database state seen by cancel: task rows, run rows,
and the process-wide set of cancel-requested task ids
(executor.py, _cancelled_task_ids). -/
structure CancelState where
  tasks : List DbTask
  runs : List DbRun
  cancelled_task_ids : List Nat
deriving DecidableEq, Repr

/-- TaskExecutor._cancel_task_with_db (executor.py). Returns the bool
result and the committed state. Row updates go through map-by-primary-key;
the set add is `List.insert`. -/
def cancel_task_with_db (now : Int) (s : CancelState) (task_id : Nat) :
    Bool × CancelState :=
  match s.tasks.find? (fun t => t.id == task_id) with
  | none => (false, s)
  | some t =>
    if t.status ≠ TaskStatus.TODO ∧ t.status ≠ TaskStatus.RUNNING then
      (false, s)
    else
      let tasks' := s.tasks.map (fun u =>
        if u.id = task_id then
          { u with status := TaskStatus.FAILED, updated_at := now }
        else u)
      let cancelled' :=
        if t.status = TaskStatus.RUNNING then
          s.cancelled_task_ids.insert task_id
        else s.cancelled_task_ids
      let runs' :=
        match t.run_id with
        | none => s.runs
        | some rid => s.runs.map (fun r =>
            if r.run_id = rid then
              { r with ended_at := some now, exit_code := some 130,
                       error_class := some ErrorClass.UNKNOWN }
            else r)
      (true, { tasks := tasks', runs := runs', cancelled_task_ids := cancelled' })

/-- api/tasks.py _set_task_for_requeue: prepare a task for re-execution
in the same worktree. The history copy takes `[task.prompt]` when the
stored history is Python-falsy (modelled by the empty list). -/
def set_task_for_requeue (now : Int) (task : DbTask) (prompt : String)
    (model : Option String) : DbTask :=
  let history := if task.prompt_history = [] then [task.prompt] else task.prompt_history
  let history := if prompt ≠ task.prompt then history ++ [prompt] else history
  { task with
    prompt := prompt,
    prompt_history := history,
    model := match model with | some m => some m | none => task.model,
    status := TaskStatus.TODO,
    updated_at := now }

/-- api/tasks.py retry_task on a found task row: HTTP 400 unless FAILED,
otherwise requeue in place with the unchanged prompt and clear run_id.
(The not-found 404 branch is handled by the route before this point.) -/
def retry_task (now : Int) (task : DbTask) : Except Nat DbTask :=
  if task.status ≠ TaskStatus.FAILED then Except.error 400
  else
    Except.ok { set_task_for_requeue now task task.prompt task.model with run_id := none }

/-- api/tasks.py continue_task on a found task row: HTTP 400 unless the
status is TO_BE_REVIEW, DONE or FAILED, otherwise requeue in place with
the new prompt and clear run_id. -/
def continue_task (now : Int) (task : DbTask) (prompt : String)
    (model : Option String) : Except Nat DbTask :=
  if task.status = TaskStatus.TO_BE_REVIEW ∨ task.status = TaskStatus.DONE ∨
      task.status = TaskStatus.FAILED then
    Except.ok { set_task_for_requeue now task prompt model with run_id := none }
  else Except.error 400

/-- The runner row fields that the heartbeat observes (models.py Runner).
heartbeat_at is non-nullable; _normalize_utc only adjusts timezone info,
which the Int model has no counterpart of. -/
structure RunnerRow where
  env : String
  heartbeat_at : Int
  status : RunnerStatus
deriving DecidableEq, Repr

/-- The per-runner body of RunnerHeartbeat._update_heartbeat
(scheduler.py): status is recomputed from the pre-tick heartbeat_at
against `now - 2 * heartbeat_interval`, then only the runner whose env
matches the local runner env gets heartbeat_at refreshed. -/
def heartbeat_tick_runner (now interval : Int) (local_env : String)
    (r : RunnerRow) : RunnerRow :=
  let threshold := now - 2 * interval
  { r with
    status := if r.heartbeat_at < threshold then RunnerStatus.OFFLINE
              else RunnerStatus.ONLINE,
    heartbeat_at := if r.env = local_env then now else r.heartbeat_at }

/-- RunnerHeartbeat._update_heartbeat over all runner rows. -/
def update_heartbeat (now interval : Int) (local_env : String)
    (runners : List RunnerRow) : List RunnerRow :=
  runners.map (heartbeat_tick_runner now interval local_env)

/-- Filesystem and git probe outcomes observed by local worktree
provisioning (executor.py, _create_worktree and helpers). Each field is
the boolean outcome the code branches on. -/
structure WtEnv where
  pathExists : String → Bool
  isdir : String → Bool
  emptyDir : String → Bool
  gitMarker : String → Bool
  revParseOk : String → Bool
  branchExists : String → Bool

/-- TaskExecutor._is_valid_git_worktree (executor.py): a directory whose
.git marker exists and in which rev-parse --is-inside-work-tree succeeds. -/
def is_valid_git_worktree (env : WtEnv) (p : String) : Bool :=
  env.isdir p && env.gitMarker p && env.revParseOk p

/-- The candidate sequence tried by _pick_recovery_worktree_path:
path-recovered, path-recovered-1, path-recovered-2, and so on. -/
def recovery_candidate (path : String) : Nat → String
  | 0 => path ++ "-recovered"
  | n + 1 => path ++ "-recovered-" ++ toString (n + 1)

/-- The while loop of _pick_recovery_worktree_path with explicit fuel:
walk the candidate sequence from index n and return the first candidate
that does not exist. -/
def pick_recovery_go (env : WtEnv) (path : String) : Nat → Nat → String
  | 0, n => recovery_candidate path n
  | fuel + 1, n =>
    let c := recovery_candidate path n
    if env.pathExists c then pick_recovery_go env path fuel (n + 1) else c

/-- TaskExecutor._pick_recovery_worktree_path (executor.py). -/
def pick_recovery_worktree_path (env : WtEnv) (path : String) (fuel : Nat) : String :=
  pick_recovery_go env path fuel 0

/-- The git worktree add action taken at the end of _create_worktree:
reuse an existing valid worktree, check out an already existing task
branch, or create the branch from the base branch. -/
inductive WtAction
  | reuse
  | add_existing_branch (branch : String)
  | add_new_branch (branch base : String)
deriving DecidableEq, Repr

/-- The observable outcome of _create_worktree: the path finally used,
whether an empty invalid directory was removed first, and the git action. -/
structure WtOutcome where
  path : String
  removed_empty_dir : Bool
  action : WtAction
deriving DecidableEq, Repr

/-- TaskExecutor._create_worktree (executor.py): create or reuse a git
worktree for a task. The desired path is the recorded worktree_path when
present, otherwise workspace_path-task-id. -/
def create_worktree (env : WtEnv) (task_id : Nat) (workspace_path base_branch : String)
    (target_path : Option String) (fuel : Nat) : WtOutcome :=
  let worktree_path := target_path.getD (workspace_path ++ "-task-" ++ toString task_id)
  let worktree_branch := "task-" ++ toString task_id
  if is_valid_git_worktree env worktree_path then
    ⟨worktree_path, false, WtAction.reuse⟩
  else
    let pr : String × Bool :=
      if env.isdir worktree_path then
        if env.emptyDir worktree_path then (worktree_path, true)
        else (pick_recovery_worktree_path env worktree_path fuel, false)
      else if env.pathExists worktree_path then
        (pick_recovery_worktree_path env worktree_path fuel, false)
      else (worktree_path, false)
    ⟨pr.1, pr.2,
      if env.branchExists worktree_branch then
        WtAction.add_existing_branch worktree_branch
      else WtAction.add_new_branch worktree_branch base_branch⟩

/-- Filesystem and git probe outcomes observed by the task reconciler
(task_reconciler.py). isAncestorRc is the return code of
git merge-base --is-ancestor task_branch base_branch. -/
structure ReconEnv where
  pathExists : String → Bool
  isdir : String → Bool
  validWorktree : String → Bool
  branchExists : String → Bool
  isAncestorRc : String → String → Int

/-- The branch states distinguished by TaskReconciler._get_branch_state. -/
inductive BranchState
  | merged
  | not_merged
  | missing
  | unknown
deriving DecidableEq, Repr

/-- TaskReconciler._get_branch_state (task_reconciler.py). -/
def get_branch_state (env : ReconEnv) (task_branch base_branch : String) : BranchState :=
  if ¬ env.branchExists task_branch then BranchState.missing
  else if ¬ env.branchExists base_branch then BranchState.unknown
  else if env.isAncestorRc task_branch base_branch = 0 then BranchState.merged
  else if env.isAncestorRc task_branch base_branch = 1 then BranchState.not_merged
  else BranchState.unknown

/-- TaskReconciler._should_clear_worktree_path (task_reconciler.py): the
recorded path is stale when it does not exist, is not a directory, or is
not a valid git worktree; the git prune and cleanup side effects do not
touch database state. -/
def should_clear_worktree_path (env : ReconEnv) (worktree_path : String) : Bool :=
  if ¬ env.pathExists worktree_path then true
  else if ¬ env.isdir worktree_path then true
  else if env.validWorktree worktree_path then false
  else true

/-- The workspace fields the reconciler observes. -/
structure ReconWorkspace where
  workspace_type : WorkspaceType
  path : String

/-- Python str.strip for its ASCII whitespace core: drop leading and
trailing whitespace characters. -/
def py_strip (s : String) : String :=
  ⟨((s.data.dropWhile Char.isWhitespace).reverse.dropWhile Char.isWhitespace).reverse⟩

/-- The base branch fallback `(task.branch_name or "main").strip() or
"main"` used by the reconciler's auto-close check. -/
def recon_base_branch (task : DbTask) : String :=
  match task.branch_name with
  | none => "main"
  | some s => if py_strip s = "" then "main" else py_strip s

/-- Whether the worktree-repair step of a reconciler pass dirties the
task row: the row records a worktree_path that the probes report stale. -/
def recon_step1_changed (env : ReconEnv) (task : DbTask) : Bool :=
  match task.worktree_path with
  | some p => should_clear_worktree_path env p
  | none => false

/-- The per-task body of TaskReconciler._reconcile_with_db
(task_reconciler.py), for a task row joined with its workspace. The
fresh column re-read of status and updated_at (task_reconciler.py lines
62 to 65) runs on an autoflush session: when the worktree-repair step
has dirtied the row, the SELECT first flushes it and the updated_at
onupdate hook (models.py line 55) rewrites updated_at to now, so the
60 second grace check then reads now rather than the stored timestamp
and the auto-close is deferred to a later pass. Any change bumps
updated_at. -/
def reconcile_task (env : ReconEnv) (now : Int) (workspace : ReconWorkspace)
    (task : DbTask) : DbTask :=
  if workspace.workspace_type ≠ WorkspaceType.LOCAL then task
  else
    let task_branch := "task-" ++ toString task.id
    let changed1 := recon_step1_changed env task
    let t1 := if changed1 then { task with worktree_path := none } else task
    let fresh_updated_at : Int := if changed1 then now else task.updated_at
    let step2 : DbTask × Bool :=
      if t1.status = TaskStatus.TO_BE_REVIEW ∧ 60 ≤ now - fresh_updated_at then
        if get_branch_state env task_branch (recon_base_branch task) = BranchState.merged ∨
            get_branch_state env task_branch (recon_base_branch task) = BranchState.missing then
          ({ t1 with status := TaskStatus.DONE, worktree_path := none }, true)
        else (t1, changed1)
      else (t1, changed1)
    if step2.2 then { step2.1 with updated_at := now } else step2.1

/-- Word characters of the regex metacharacter for word boundaries, for
the ASCII texts the adapter scans: letters, digits and underscore. -/
def is_word_char (c : Char) : Bool :=
  c.isAlphanum || c = '_'

/-- Whitespace characters matched by the regex whitespace class (ASCII
core). -/
def is_space_char (c : Char) : Bool :=
  c = ' ' || c = '\t' || c = '\n' || c = '\r' || c = '\x0b' || c = '\x0c'

/-- Literal match of a needle at the start of a character list. -/
def lit_pre : List Char → List Char → Bool
  | [], _ => true
  | _ :: _, [] => false
  | a :: as, b :: bs => decide (a = b) && lit_pre as bs

/-- Python substring containment `needle in hay` over character lists. -/
def contains_sub (n : List Char) : List Char → Bool
  | [] => lit_pre n []
  | c :: rest => lit_pre n (c :: rest) || contains_sub n rest

/-- A word boundary holds after a literal when the next character is
absent or not a word character. -/
def boundary_after : List Char → Bool
  | [] => true
  | c :: _ => !is_word_char c

/-- The keyword alternatives of the first 429 pattern in
CopilotAdapter._scan_for_quota_keywords (copilot.py). -/
def kw429 : List (List Char) :=
  ["http", "status", "error", "code"].map String.data

/-- The tail of the first 429 pattern after its keyword: any run of
whitespace, one optional colon, equals sign or hyphen, any run of
whitespace, the literal 429, and a word boundary. The three character
classes involved are pairwise disjoint, so the greedy deterministic
reading coincides with the regex semantics. -/
def tail_429 (s : List Char) : Bool :=
  let s1 := s.dropWhile is_space_char
  let s2 :=
    match s1 with
    | c :: rest => if c = ':' || c = '=' || c = '-' then rest else s1
    | [] => s1
  let s3 := s2.dropWhile is_space_char
  lit_pre ['4', '2', '9'] s3 && boundary_after (s3.drop 3)

/-- One anchoring of the first 429 pattern at the head of a suffix. -/
def match1_at (s : List Char) : Bool :=
  kw429.any (fun w => lit_pre w s && tail_429 (s.drop w.length))

/-- Search of the first 429 pattern over all suffixes, tracking whether
the previous character is a word character so the leading word boundary
can be decided. -/
def match1_go (prev_word : Bool) : List Char → Bool
  | [] => false
  | c :: rest =>
    (!prev_word && match1_at (c :: rest)) || match1_go (is_word_char c) rest

/-- re.search of `(word boundary)(http|status|error|code) ... 429` on a
line (copilot.py). -/
def match1 (cs : List Char) : Bool :=
  match1_go false cs

/-- The phrase alternatives of the second 429 pattern. -/
def quota_tail_phrases : List (List Char) :=
  ["too many requests", "rate limit", "quota"].map String.data

/-- One anchoring of a quota phrase with its trailing word boundary. -/
def phrase_at (s : List Char) : Bool :=
  quota_tail_phrases.any (fun w => lit_pre w s && boundary_after (s.drop w.length))

/-- Search for a bounded quota phrase along a suffix, where the
reachable positions are those the dot of the regex can span: the search
stops at a newline, which the dot does not match. -/
def search_phrase (prev_word : Bool) : List Char → Bool
  | [] => false
  | c :: rest =>
    (!prev_word && phrase_at (c :: rest)) ||
      (if c = '\n' then false else search_phrase (is_word_char c) rest)

/-- Search of the second 429 pattern over all suffixes: a bounded 429
followed, within the same line, by a bounded quota phrase. -/
def match2_go (prev_word : Bool) : List Char → Bool
  | [] => false
  | c :: rest =>
    (!prev_word && lit_pre ['4', '2', '9'] (c :: rest) &&
      boundary_after ((c :: rest).drop 3) && search_phrase true ((c :: rest).drop 3)) ||
    match2_go (is_word_char c) rest

/-- re.search of `(word boundary)429(word boundary).*(too many
requests|rate limit|quota)(word boundary)` on a line (copilot.py). -/
def match2 (cs : List Char) : Bool :=
  match2_go false cs

/-- The plain-text quota keyword phrases of
CopilotAdapter._scan_for_quota_keywords (copilot.py). -/
def quota_phrases : List (List Char) :=
  ["rate limit", "rate_limit", "quota exceeded", "insufficient credit",
   "billing error", "usage limit", "overloaded", "too many requests"].map String.data

/-- CopilotAdapter._scan_for_quota_keywords (copilot.py): the quota flag
is raised for a line when its casefolded text contains a quota keyword
phrase or matches one of the two 429 regex patterns. -/
def scan_for_quota_keywords (text : String) : Bool :=
  let lower := text.data.map Char.toLower
  quota_phrases.any (fun kw => contains_sub kw lower) || match1 lower || match2 lower

/-- The final component of a slash-separated relative path, as
pathlib's name attribute yields for the paths produced by the directory
walk (api/workspaces.py). -/
def path_basename (p : String) : String :=
  ⟨(p.data.reverse.takeWhile (fun c => decide (c ≠ '/'))).reverse⟩

/-- pathlib's stem of a final path component: the component without its
last dot-suffix when that dot is neither leading nor trailing. -/
def path_stem (name : String) : String :=
  let cs := name.data
  match cs.reverse.findIdx? (fun c => decide (c = '.')) with
  | none => name
  | some ridx =>
    let i := cs.length - 1 - ridx
    if 0 < i ∧ i < cs.length - 1 then ⟨cs.take i⟩ else name

/-- The greedy subsequence pointer loop of _fuzzy_score
(api/workspaces.py): walk the text, advancing a pointer into the query
on every matching character; what remains of the query is returned. -/
def subseq_rest : List Char → List Char → List Char
  | q, [] => q
  | [], _ :: _ => []
  | qc :: qrest, c :: rest =>
    if qc = c then subseq_rest qrest rest else subseq_rest (qc :: qrest) rest

/-- The subsequence test of _fuzzy_score: the pointer reached the end of
the query. -/
def is_subseq (q s : List Char) : Bool :=
  (subseq_rest q s).isEmpty

/-- _fuzzy_score (api/workspaces.py): deterministic match score of a
relative path against a query, both casefolded. -/
def fuzzy_score (rel_path query : String) : Nat :=
  if query = "" then 1
  else
    let q := query.data.map Char.toLower
    let basename := (path_basename rel_path).data.map Char.toLower
    let stem := (path_stem (path_basename rel_path)).data.map Char.toLower
    let path_lc := rel_path.data.map Char.toLower
    if basename = q ∨ stem = q then 1000
    else if lit_pre q basename || lit_pre q stem then 900
    else if contains_sub q basename then 700
    else if contains_sub q path_lc then 500
    else if is_subseq q basename then 300
    else if is_subseq q path_lc then 100
    else 0

/-- Modelled from the spec's scoring table for comparison with
fuzzy_score: the same cascade written with the semantic prefix, infix
and subsequence relations of the specification. -/
def spec_fuzzy_score (rel_path query : String) : Nat :=
  if query = "" then 1
  else
    let q := query.data.map Char.toLower
    let basename := (path_basename rel_path).data.map Char.toLower
    let stem := (path_stem (path_basename rel_path)).data.map Char.toLower
    let path_lc := rel_path.data.map Char.toLower
    if basename = q ∨ stem = q then 1000
    else if q <+: basename ∨ q <+: stem then 900
    else if q <:+: basename then 700
    else if q <:+: path_lc then 500
    else if List.Sublist q basename then 300
    else if List.Sublist q path_lc then 100
    else 0

/-- Python string comparison: lexicographic on code points. -/
def str_le : List Char → List Char → Bool
  | [], _ => true
  | _ :: _, [] => false
  | x :: xs, y :: ys =>
    if x.toNat = y.toNat then str_le xs ys else decide (x.toNat < y.toNat)

/-- The Python sort key (-score, path) of _list_files_local as an order
relation on scored entries: higher score first, ties by path. -/
def score_pair_ord (a b : Nat × String) : Prop :=
  b.1 < a.1 ∨ (a.1 = b.1 ∧ str_le a.2.data b.2.data = true)

instance : DecidableRel score_pair_ord := fun a b => by
  unfold score_pair_ord
  exact inferInstance

/-- The scoring, filtering, sorting and truncation pipeline of
_list_files_local (api/workspaces.py), over the relative paths produced
by the pruned directory walk. -/
def list_files_local (files : List String) (query : String) (limit : Nat) :
    List String :=
  let scored := (files.map (fun rel => (fuzzy_score rel query, rel))).filter
    (fun p => decide (0 < p.1))
  let sorted := List.insertionSort score_pair_ord scored
  (sorted.take limit).map (fun p => p.2)

/-- The task columns the scheduler admission gates read (scheduler.py). -/
structure SchedTask where
  id : Nat
  workspace_id : Nat
  status : TaskStatus
  backend : String
deriving DecidableEq, Repr

/-- The workspace columns the scheduler admission gates read. -/
structure SchedWorkspace where
  workspace_id : Nat
  runner_id : Nat
  concurrency_limit : Nat
deriving DecidableEq, Repr

/-- The runner columns the scheduler admission gates read. -/
structure SchedRunner where
  runner_id : Nat
  status : RunnerStatus
  capabilities : List String
  max_parallel : Nat
deriving DecidableEq, Repr

/-- The database state the scheduler tick observes. -/
structure SchedState where
  tasks : List SchedTask
  workspaces : List SchedWorkspace
  runners : List SchedRunner
deriving DecidableEq, Repr

/-- Membership of a task row in the per-workspace Running count query of
_try_dispatch_task (scheduler.py). -/
def ws_pred (wid : Nat) (t : SchedTask) : Bool :=
  decide (t.workspace_id = wid) && decide (t.status = TaskStatus.RUNNING)

/-- The count of Running tasks of one workspace. -/
def running_count_ws (s : SchedState) (wid : Nat) : Nat :=
  s.tasks.countP (ws_pred wid)

/-- Membership of a task row in the per-runner Running count query of
_try_dispatch_task: Running tasks joined to workspaces bound to the
runner. -/
def runner_pred (workspaces : List SchedWorkspace) (rid : Nat) (t : SchedTask) : Bool :=
  decide (t.status = TaskStatus.RUNNING) &&
    (match workspaces.find? (fun w => w.workspace_id == t.workspace_id) with
     | some w => w.runner_id == rid
     | none => false)

/-- The count of Running tasks across a runner's workspaces. -/
def running_count_runner (s : SchedState) (rid : Nat) : Nat :=
  s.tasks.countP (runner_pred s.workspaces rid)

/-- The admission latch of the executor: the dispatched task row is
moved to Running (executor.py, Todo re-check plus Running transition). -/
def set_task_running (tasks : List SchedTask) (tid : Nat) : List SchedTask :=
  tasks.map (fun t => if t.id = tid then { t with status := TaskStatus.RUNNING } else t)

/-- TaskScheduler._try_dispatch_task (scheduler.py) fused with the
executor's Todo re-check: evaluate the admission gates in source order
and on success commit the task as Running. none means the task was not
dispatched (the executor's failure paths, which park the task in Failed,
are separate transitions of the step relation below). -/
def try_dispatch_task (s : SchedState) (tid : Nat) : Option SchedState :=
  match s.tasks.find? (fun t => t.id == tid) with
  | none => none
  | some t =>
    match s.workspaces.find? (fun w => w.workspace_id == t.workspace_id) with
    | none => none
    | some w =>
      if max 1 w.concurrency_limit ≤ running_count_ws s w.workspace_id then none
      else
        match s.runners.find? (fun r => r.runner_id == w.runner_id) with
        | none => none
        | some r =>
          if r.status ≠ RunnerStatus.ONLINE then none
          else if ¬ t.backend ∈ r.capabilities then none
          else if max 1 r.max_parallel ≤ running_count_runner s r.runner_id then none
          else if t.status ≠ TaskStatus.TODO then none
          else some { s with tasks := set_task_running s.tasks tid }

/-- The state transitions of the system relevant to the Running counts:
a scheduler dispatch, any write that parks a task in a non-Running
status (cancel, terminal persistence, retry, continue, reconciler,
executor failure paths), task creation in Todo with a fresh id, deletion
of a non-Running task, and heartbeat updates of runner status.
Workspace and runner limits are not touched by any of these code paths. -/
inductive SchedStep : SchedState → SchedState → Prop
  | dispatch (s : SchedState) (tid : Nat) (s' : SchedState)
      (h : try_dispatch_task s tid = some s') : SchedStep s s'
  | set_status (s : SchedState) (tid : Nat) (st : TaskStatus)
      (h : st ≠ TaskStatus.RUNNING) :
      SchedStep s { s with tasks := s.tasks.map (fun t =>
        if t.id = tid then { t with status := st } else t) }
  | create (s : SchedState) (t : SchedTask) (hst : t.status = TaskStatus.TODO)
      (hfresh : ∀ u ∈ s.tasks, u.id ≠ t.id) :
      SchedStep s { s with tasks := s.tasks ++ [t] }
  | remove (s : SchedState) (tid : Nat)
      (h : ∀ u ∈ s.tasks, u.id = tid → u.status ≠ TaskStatus.RUNNING) :
      SchedStep s { s with tasks := s.tasks.filter (fun t => decide (t.id ≠ tid)) }
  | runner_update (s : SchedState) (rid : Nat) (st : RunnerStatus) :
      SchedStep s { s with runners := s.runners.map (fun r =>
        if r.runner_id = rid then { r with status := st } else r) }

/-- Reachability under the scheduler-relevant transitions. -/
inductive SchedReach : SchedState → SchedState → Prop
  | refl (s : SchedState) : SchedReach s s
  | tail (s s' s'' : SchedState) :
      SchedReach s s' → SchedStep s' s'' → SchedReach s s''

/-- Primary key integrity of the store: task, workspace and runner ids
are unique. -/
def sched_wf (s : SchedState) : Prop :=
  (s.tasks.map (fun t => t.id)).Nodup ∧
  (s.workspaces.map (fun w => w.workspace_id)).Nodup ∧
  (s.runners.map (fun r => r.runner_id)).Nodup

/-- The concurrency invariant of the claim: per-workspace and per-runner
Running counts stay within the floored-at-1 limits. -/
def sched_inv (s : SchedState) : Prop :=
  (∀ w ∈ s.workspaces,
    running_count_ws s w.workspace_id ≤ max 1 w.concurrency_limit) ∧
  (∀ r ∈ s.runners,
    running_count_runner s r.runner_id ≤ max 1 r.max_parallel)

/- ===================== theorems ===================== -/

/-- List.find? over a map that preserves the searched key equals the map
of List.find?. Used to read a row back after a map-by-primary-key update. -/
theorem find?_map_key {α : Type} (key : α → Nat) (g : α → α)
    (hg : ∀ u, key (g u) = key u) (k : Nat) :
    ∀ l : List α,
      (l.map g).find? (fun u => key u == k) =
        ((l.find? (fun u => key u == k)).map g)
  | [] => rfl
  | u :: l => by
    by_cases h : key u = k
    · rw [List.map_cons, List.find?_cons_of_pos _ (by simp [hg, h]),
        List.find?_cons_of_pos _ (by simp [h]), Option.map_some']
    · rw [List.map_cons, List.find?_cons_of_neg _ (by simp [hg, h]),
        List.find?_cons_of_neg _ (by simp [h])]
      exact find?_map_key key g hg k l

/-- C2 (amended): when the executor persists a run's terminal outcome,
the case analysis over (cancelled, is_quota_error, success,
error_class_str) is: cancelled gives exit_code 130, error class Unknown
and task Failed; else quota-and-not-success gives Quota and Failed; else
success gives ToBeReview and a null error class; otherwise Failed with
the mapped error class defaulting to Unknown when the string is absent
or unrecognized. run.ended_at is always set and task.updated_at bumped;
the accumulated log text is written to run.log_blob when it is nonempty,
while an empty accumulation leaves run.log_blob unchanged. -/
theorem c2_persist_terminal_outcome (now exit_code : Int) (success : Bool)
    (ecs : Option String) (log_blob : String) (wc : Bool)
    (ud : Option String) (iq : Bool) (task : DbTask) (run : DbRun) :
    let r := persist_execution_result now exit_code success ecs log_blob wc ud iq task run
    r.2.ended_at = some now ∧ r.1.updated_at = now ∧
    (wc = true → r.1.status = TaskStatus.FAILED ∧ r.2.exit_code = some 130 ∧
      r.2.error_class = some ErrorClass.UNKNOWN) ∧
    (wc = false → iq = true → success = false → r.1.status = TaskStatus.FAILED ∧
      r.2.error_class = some ErrorClass.QUOTA ∧ r.2.exit_code = some exit_code) ∧
    (wc = false → success = true → r.1.status = TaskStatus.TO_BE_REVIEW ∧
      r.2.error_class = none ∧ r.2.exit_code = some exit_code) ∧
    (wc = false → iq = false → success = false → r.1.status = TaskStatus.FAILED ∧
      r.2.error_class = some (mapped_error_class ecs) ∧ r.2.exit_code = some exit_code) ∧
    (mapped_error_class none = ErrorClass.UNKNOWN) ∧
    (∀ s, error_class_of_string s = none →
      mapped_error_class (some s) = ErrorClass.UNKNOWN) ∧
    (log_blob ≠ "" → r.2.log_blob = some log_blob) ∧
    (log_blob = "" → r.2.log_blob = run.log_blob) := by
  cases wc <;> cases success <;> cases iq <;> cases ud <;>
    by_cases hl : log_blob = "" <;>
      simp_all [persist_execution_result, mapped_error_class]

/-- C2 counterexample to the claim as stated: with an empty accumulated
log text the code leaves run.log_blob untouched (here at its previously
flushed value "old"), so the accumulated text is not written to
run.log_blob in all cases. -/
theorem c2_counterexample :
    (persist_execution_result 10 0 true none "" false none false
      ⟨1, TaskStatus.RUNNING, "p", ["p"], none, some 1, none, none, 0⟩
      ⟨1, none, none, none, some "old", none⟩).2.log_blob = some "old" ∧
    (some "old" : Option String) ≠ some "" := by
  decide

/-- Witness for c2_persist_terminal_outcome at a concrete cancelled run. -/
theorem c2_persist_terminal_outcome_witness :
    (persist_execution_result 10 7 false none "L" true none false
      ⟨1, TaskStatus.RUNNING, "p", ["p"], none, some 1, none, none, 0⟩
      ⟨1, none, none, none, none, none⟩).1.status = TaskStatus.FAILED := by
  have h := c2_persist_terminal_outcome 10 7 false none "L" true none false
    ⟨1, TaskStatus.RUNNING, "p", ["p"], none, some 1, none, none, 0⟩
    ⟨1, none, none, none, none, none⟩
  exact (h.2.2.1 rfl).1

/-- List.find? over a map-by-id update on task rows. -/
theorem find?_id_map_tasks (l : List DbTask) (g : DbTask → DbTask)
    (hg : ∀ u, (g u).id = u.id) (k : Nat) :
    (l.map g).find? (fun u => u.id == k) =
      ((l.find? (fun u => u.id == k)).map g) :=
  find?_map_key (fun u => u.id) g hg k l

/-- List.find? over a map-by-id update on run rows. -/
theorem find?_id_map_runs (l : List DbRun) (g : DbRun → DbRun)
    (hg : ∀ u, (g u).run_id = u.run_id) (k : Nat) :
    (l.map g).find? (fun u => u.run_id == k) =
      ((l.find? (fun u => u.run_id == k)).map g) :=
  find?_map_key (fun u => u.run_id) g hg k l

/-- C3: cancel of a non-existent task returns false; cancel of a task in
a status other than Todo or Running returns false and changes nothing;
cancel of a Todo or Running task returns true, sets the task Failed,
adds the id to the process-wide cancel set exactly when it was Running,
and closes the pointed-at run with ended_at = now, exit_code = 130 and
error class Unknown; a second cancel after a successful one is a no-op
returning false. -/
theorem c3_cancel (now now2 : Int) (s : CancelState) (tid : Nat) :
    (s.tasks.find? (fun t => t.id == tid) = none →
      cancel_task_with_db now s tid = (false, s)) ∧
    (∀ t, s.tasks.find? (fun t => t.id == tid) = some t →
      t.status ≠ TaskStatus.TODO → t.status ≠ TaskStatus.RUNNING →
      cancel_task_with_db now s tid = (false, s)) ∧
    (∀ t, s.tasks.find? (fun t => t.id == tid) = some t →
      t.status = TaskStatus.TODO ∨ t.status = TaskStatus.RUNNING →
        (cancel_task_with_db now s tid).1 = true ∧
        (cancel_task_with_db now s tid).2.tasks.find? (fun u => u.id == tid) =
          some { t with status := TaskStatus.FAILED, updated_at := now } ∧
        (tid ∈ (cancel_task_with_db now s tid).2.cancelled_task_ids ↔
          t.status = TaskStatus.RUNNING ∨ tid ∈ s.cancelled_task_ids) ∧
        (t.status = TaskStatus.TODO →
          (cancel_task_with_db now s tid).2.cancelled_task_ids =
            s.cancelled_task_ids) ∧
        (∀ rid r, t.run_id = some rid →
          s.runs.find? (fun v => v.run_id == rid) = some r →
          (cancel_task_with_db now s tid).2.runs.find? (fun v => v.run_id == rid) =
            some { r with ended_at := some now, exit_code := some 130,
                          error_class := some ErrorClass.UNKNOWN })) ∧
    (∀ s', cancel_task_with_db now s tid = (true, s') →
      cancel_task_with_db now2 s' tid = (false, s')) := by
  refine ⟨?_, ?_, ?_, ?_⟩
  · intro h
    simp [cancel_task_with_db, h]
  · intro t ht h1 h2
    simp [cancel_task_with_db, ht, h1, h2]
  · intro t ht hst
    have hid : t.id = tid := by
      have hpred := List.find?_some ht
      simpa using hpred
    have hcond : ¬ (t.status ≠ TaskStatus.TODO ∧ t.status ≠ TaskStatus.RUNNING) := by
      tauto
    refine ⟨?_, ?_, ?_, ?_, ?_⟩
    · simp [cancel_task_with_db, ht, hcond]
    · simp only [cancel_task_with_db, ht, if_neg hcond]
      rw [find?_id_map_tasks _ _ (fun u => by by_cases h : u.id = tid <;> simp [h]) tid]
      rw [ht]
      simp [hid]
    · simp only [cancel_task_with_db, ht, if_neg hcond]
      by_cases hr : t.status = TaskStatus.RUNNING
      · simp [hr, List.mem_insert_iff]
      · simp [hr]
    · intro htodo
      have hr : ¬ t.status = TaskStatus.RUNNING := by
        rw [htodo]; intro hcontra; cases hcontra
      simp only [cancel_task_with_db, ht, if_neg hcond]
      simp [hr]
    · intro rid r hrid hrfind
      simp only [cancel_task_with_db, ht, if_neg hcond, hrid]
      rw [find?_id_map_runs _ _ (fun u => by by_cases h : u.run_id = rid <;> simp [h]) rid]
      rw [hrfind]
      have hrid2 : r.run_id = rid := by
        have hpred := List.find?_some hrfind
        simpa using hpred
      simp [hrid2]
  · intro s' heq
    cases hfind : s.tasks.find? (fun t => t.id == tid) with
    | none =>
      rw [cancel_task_with_db] at heq
      simp [hfind] at heq
    | some t =>
      by_cases hcond : t.status ≠ TaskStatus.TODO ∧ t.status ≠ TaskStatus.RUNNING
      · rw [cancel_task_with_db] at heq
        simp [hfind, hcond] at heq
      · have hid : t.id = tid := by
          have hpred := List.find?_some hfind
          simpa using hpred
        rw [cancel_task_with_db] at heq
        simp only [hfind, if_neg hcond] at heq
        have hs' : s'.tasks = s.tasks.map (fun u =>
            if u.id = tid then
              { u with status := TaskStatus.FAILED, updated_at := now }
            else u) := by
          have h2 := congrArg (fun p => Prod.snd p) heq
          simp only at h2
          rw [← h2]
        have hfind' : s'.tasks.find? (fun u => u.id == tid) =
            some { t with status := TaskStatus.FAILED, updated_at := now } := by
          rw [hs']
          rw [find?_id_map_tasks _ _ (fun u => by by_cases h : u.id = tid <;> simp [h]) tid]
          rw [hfind]
          simp [hid]
        rw [cancel_task_with_db]
        simp [hfind']

/-- Witness for c3_cancel at a concrete one-task state: cancelling a
Running task returns true. -/
theorem c3_cancel_witness :
    (cancel_task_with_db 5
      ⟨[⟨1, TaskStatus.RUNNING, "p", ["p"], none, some 1, none, none, 0⟩],
       [⟨1, none, none, none, none, none⟩], []⟩ 1).1 = true := by
  have h := c3_cancel 5 6
    ⟨[⟨1, TaskStatus.RUNNING, "p", ["p"], none, some 1, none, none, 0⟩],
     [⟨1, none, none, none, none, none⟩], []⟩ 1
  exact (h.2.2.1 ⟨1, TaskStatus.RUNNING, "p", ["p"], none, some 1, none, none, 0⟩
    (by decide) (Or.inr rfl)).1

/-- C4: retry of a Failed task re-uses the same task row, setting only
status := Todo, run_id := null and bumping updated_at, so the id, the
worktree_path, the prompt and the prompt_history are all unchanged; retry
in any other status yields HTTP 400 and changes nothing. The hypothesis
that prompt_history is non-empty is the data-model invariant that every
task's prompt_history holds at least its current prompt. -/
theorem c4_retry_in_place (now : Int) (task : DbTask) :
    (task.status = TaskStatus.FAILED → task.prompt_history ≠ [] →
      retry_task now task =
        Except.ok { task with status := TaskStatus.TODO, run_id := none,
                              updated_at := now }) ∧
    (task.status ≠ TaskStatus.FAILED → retry_task now task = Except.error 400) := by
  constructor
  · intro hst hph
    cases task with
    | mk id st p ph wt rid mdl bn ua =>
      simp only at hst hph
      cases mdl <;> simp [retry_task, set_task_for_requeue, hst, hph]
  · intro hst
    simp [retry_task, hst]

/-- Witness for c4_retry_in_place at a concrete Failed task. -/
theorem c4_retry_in_place_witness :
    retry_task 9 ⟨3, TaskStatus.FAILED, "p", ["p"], some "/w", some 4, none, none, 0⟩ =
      Except.ok ⟨3, TaskStatus.TODO, "p", ["p"], some "/w", none, none, none, 9⟩ := by
  have h := c4_retry_in_place 9
    ⟨3, TaskStatus.FAILED, "p", ["p"], some "/w", some 4, none, none, 0⟩
  exact h.1 rfl (by decide)

/-- C5: continue of a task in ToBeReview, Done or Failed requeues it to
Todo in place, clearing run_id and preserving id and worktree_path, and
overwriting the prompt; when the new prompt equals the stored prompt the
prompt_history is unchanged (retry behaviour), and when it differs
exactly one element is appended and it is the new prompt. The
prompt_history non-emptiness hypothesis is the data-model invariant. -/
theorem c5_continue_prompt_history (now : Int) (task : DbTask) (p : String)
    (m : Option String) :
    task.status = TaskStatus.TO_BE_REVIEW ∨ task.status = TaskStatus.DONE ∨
      task.status = TaskStatus.FAILED →
    task.prompt_history ≠ [] →
    ∃ t', continue_task now task p m = Except.ok t' ∧
      t'.id = task.id ∧ t'.status = TaskStatus.TODO ∧ t'.run_id = none ∧
      t'.worktree_path = task.worktree_path ∧ t'.prompt = p ∧
      (p = task.prompt → t'.prompt_history = task.prompt_history) ∧
      (p ≠ task.prompt →
        t'.prompt_history = task.prompt_history ++ [p] ∧
        t'.prompt_history.length = task.prompt_history.length + 1 ∧
        t'.prompt_history.getLast? = some p) := by
  intro hst hph
  refine ⟨{ set_task_for_requeue now task p m with run_id := none }, ?_, ?_⟩
  · rcases hst with h | h | h <;> simp [continue_task, h]
  · by_cases hp : p = task.prompt <;>
      simp [set_task_for_requeue, hph, hp, List.getLast?_append]

/-- Witness for c5_continue_prompt_history at a concrete ToBeReview task
continued with a different prompt. -/
theorem c5_continue_prompt_history_witness :
    ∃ t', continue_task 9 ⟨3, TaskStatus.TO_BE_REVIEW, "p", ["p"], some "/w", some 4,
        none, none, 0⟩ "q" none = Except.ok t' ∧
      t'.prompt_history = ["p", "q"] := by
  have h := c5_continue_prompt_history 9
    ⟨3, TaskStatus.TO_BE_REVIEW, "p", ["p"], some "/w", some 4, none, none, 0⟩
    "q" none (Or.inl rfl) (by decide)
  obtain ⟨t', heq, -, -, -, -, -, -, hne⟩ := h
  exact ⟨t', heq, (hne (by decide)).1⟩

/-- C10: on a heartbeat tick every runner's status is recomputed from its
pre-tick heartbeat_at: Offline exactly when it is older than twice the
heartbeat interval and Online otherwise (so a stale runner that resumed
heartbeating is restored to Online), while heartbeat_at itself is
refreshed to now exactly for runners whose env equals the local runner
env. -/
theorem c10_heartbeat_recompute (now interval : Int) (local_env : String)
    (runners : List RunnerRow) (r : RunnerRow) :
    update_heartbeat now interval local_env runners =
      runners.map (heartbeat_tick_runner now interval local_env) ∧
    ((heartbeat_tick_runner now interval local_env r).status = RunnerStatus.OFFLINE ↔
      r.heartbeat_at < now - 2 * interval) ∧
    ((heartbeat_tick_runner now interval local_env r).status = RunnerStatus.ONLINE ↔
      ¬ r.heartbeat_at < now - 2 * interval) ∧
    ((heartbeat_tick_runner now interval local_env r).heartbeat_at =
      if r.env = local_env then now else r.heartbeat_at) ∧
    (r.status = RunnerStatus.OFFLINE → ¬ r.heartbeat_at < now - 2 * interval →
      (heartbeat_tick_runner now interval local_env r).status = RunnerStatus.ONLINE) := by
  refine ⟨rfl, ?_, ?_, rfl, ?_⟩ <;>
    by_cases h : r.heartbeat_at < now - 2 * interval <;>
      simp [heartbeat_tick_runner, h]

/-- Witness for c10_heartbeat_recompute: an Offline runner with a fresh
pre-tick heartbeat is restored to Online. -/
theorem c10_heartbeat_recompute_witness :
    (heartbeat_tick_runner 100 10 "local"
      ⟨"local", 90, RunnerStatus.OFFLINE⟩).status = RunnerStatus.ONLINE := by
  have h := c10_heartbeat_recompute 100 10 "local" []
    ⟨"local", 90, RunnerStatus.OFFLINE⟩
  exact h.2.2.2.2 rfl (by decide)

/-- The fueled recovery loop returns the first candidate that does not
exist: if the first k candidates from index n all exist and candidate
n + k does not, the loop lands on candidate n + k. -/
theorem pick_recovery_go_first_free (env : WtEnv) (path : String) :
    ∀ fuel n k, k < fuel →
      (∀ m, m < k → env.pathExists (recovery_candidate path (n + m)) = true) →
      env.pathExists (recovery_candidate path (n + k)) = false →
      pick_recovery_go env path fuel n = recovery_candidate path (n + k) := by
  intro fuel
  induction fuel with
  | zero => intro n k hk; omega
  | succ fuel ih =>
    intro n k hk hbusy hfree
    cases k with
    | zero =>
      simp only [Nat.add_zero] at hfree
      simp [pick_recovery_go, hfree]
    | succ k' =>
      have h0 : env.pathExists (recovery_candidate path n) = true := by
        have := hbusy 0 (Nat.succ_pos k')
        simpa using this
      simp only [pick_recovery_go, h0, if_true]
      have hres := ih (n + 1) k' (by omega)
        (fun m hm => by
          have := hbusy (m + 1) (by omega)
          have harith : n + (m + 1) = n + 1 + m := by omega
          rwa [harith] at this)
        (by
          have harith : n + (k' + 1) = n + 1 + k' := by omega
          rwa [harith] at hfree)
      rw [hres]
      have harith : n + 1 + k' = n + (k' + 1) := by omega
      rw [harith]

/-- C7: local worktree provisioning is idempotent and recovers from
corrupted paths. With P the recorded worktree_path or
workspace_path-task-id: a valid existing worktree at P is reused with no
other action; an empty invalid directory at P is removed and
provisioning proceeds at P; a non-empty invalid directory (or a
non-directory entry) at P diverts to the first free candidate
P-recovered, P-recovered-1, ...; and whenever no reuse happens, the
worktree is added on the existing branch task-id, or with -b task-id
from the base branch when that branch does not exist. -/
theorem c7_create_worktree (env : WtEnv) (task_id : Nat)
    (workspace_path base_branch : String) (target_path : Option String)
    (fuel : Nat) :
    let p := target_path.getD (workspace_path ++ "-task-" ++ toString task_id)
    let r := create_worktree env task_id workspace_path base_branch target_path fuel
    (is_valid_git_worktree env p = true → r = ⟨p, false, WtAction.reuse⟩) ∧
    (is_valid_git_worktree env p = false → env.isdir p = true →
      env.emptyDir p = true → r.path = p ∧ r.removed_empty_dir = true) ∧
    (∀ k, is_valid_git_worktree env p = false → env.isdir p = true →
      env.emptyDir p = false → k < fuel →
      (∀ m, m < k → env.pathExists (recovery_candidate p m) = true) →
      env.pathExists (recovery_candidate p k) = false →
      r.path = recovery_candidate p k ∧ env.pathExists r.path = false) ∧
    (∀ k, env.isdir p = false → env.pathExists p = true → k < fuel →
      (∀ m, m < k → env.pathExists (recovery_candidate p m) = true) →
      env.pathExists (recovery_candidate p k) = false →
      r.path = recovery_candidate p k ∧ env.pathExists r.path = false) ∧
    (env.isdir p = false → env.pathExists p = false →
      r.path = p ∧ r.removed_empty_dir = false) ∧
    (is_valid_git_worktree env p = false →
      r.action = (if env.branchExists ("task-" ++ toString task_id) then
          WtAction.add_existing_branch ("task-" ++ toString task_id)
        else WtAction.add_new_branch ("task-" ++ toString task_id) base_branch)) := by
  intro p
  refine ⟨?_, ?_, ?_, ?_, ?_, ?_⟩
  · intro hv
    simp [create_worktree, hv]
  · intro hv hd he
    simp [create_worktree, hv, hd, he]
  · intro k hv hd he hk hbusy hfree
    have hpick : pick_recovery_worktree_path env p fuel = recovery_candidate p k := by
      have := pick_recovery_go_first_free env p fuel 0 k hk
        (fun m hm => by simpa using hbusy m hm) (by simpa using hfree)
      simpa [pick_recovery_worktree_path] using this
    simp [create_worktree, hv, hd, he, hpick, hfree]
  · intro k hd hx hk hbusy hfree
    have hv : is_valid_git_worktree env p = false := by
      simp [is_valid_git_worktree, hd]
    have hpick : pick_recovery_worktree_path env p fuel = recovery_candidate p k := by
      have := pick_recovery_go_first_free env p fuel 0 k hk
        (fun m hm => by simpa using hbusy m hm) (by simpa using hfree)
      simpa [pick_recovery_worktree_path] using this
    simp [create_worktree, hv, hd, hx, hpick, hfree]
  · intro hd hx
    have hv : is_valid_git_worktree env p = false := by
      simp [is_valid_git_worktree, hd]
    simp [create_worktree, hv, hd, hx]
  · intro hv
    by_cases hd : env.isdir p = true <;>
      by_cases he : env.emptyDir p = true <;>
        by_cases hx : env.pathExists p = true <;>
          simp_all [create_worktree]

/-- Witness for c7_create_worktree: a non-empty invalid directory at the
desired path diverts provisioning to the free fallback path. -/
theorem c7_create_worktree_witness :
    (create_worktree
      ⟨fun s => s = "/repo-task-7", fun s => s = "/repo-task-7",
       fun _ => false, fun _ => false, fun _ => false, fun _ => false⟩
      7 "/repo" "main" none 5).path = "/repo-task-7-recovered" := by
  have h := c7_create_worktree
    ⟨fun s => s = "/repo-task-7", fun s => s = "/repo-task-7",
     fun _ => false, fun _ => false, fun _ => false, fun _ => false⟩
    7 "/repo" "main" none 5
  have hres := h.2.2.1 0 (by decide) (by decide) (by decide) (by decide)
    (fun m hm => absurd hm (Nat.not_lt_zero m)) (by decide)
  exact hres.1

/-- A reconciler pass on a task of a Local workspace, in closed form:
when the worktree-repair step fires (a stale recorded worktree_path),
the fresh re-read autoflushes the repair, the updated_at onupdate hook
resets the 60 second clock and the auto-close is deferred, so the pass
only clears the reference and bumps updated_at; otherwise the task is
auto-closed to Done (worktree reference cleared, updated_at bumped)
when it is in ToBeReview, was last updated at least 60 seconds ago and
its task branch is merged or missing; otherwise the row is left
untouched. -/
theorem reconcile_task_local_eq (env : ReconEnv) (now : Int)
    (ws : ReconWorkspace) (task : DbTask)
    (hws : ws.workspace_type = WorkspaceType.LOCAL) :
    reconcile_task env now ws task =
      (if recon_step1_changed env task = true then
        { task with worktree_path := none, updated_at := now }
      else if task.status = TaskStatus.TO_BE_REVIEW ∧ 60 ≤ now - task.updated_at ∧
          (get_branch_state env ("task-" ++ toString task.id) (recon_base_branch task) =
              BranchState.merged ∨
            get_branch_state env ("task-" ++ toString task.id) (recon_base_branch task) =
              BranchState.missing) then
        { task with status := TaskStatus.DONE, worktree_path := none, updated_at := now }
      else task) := by
  by_cases hc : recon_step1_changed env task = true
  · have hng : ¬ ((60 : Int) ≤ now - now) := by omega
    simp [reconcile_task, hws, hc, hng]
  · by_cases hA : task.status = TaskStatus.TO_BE_REVIEW <;>
      by_cases hB : 60 ≤ now - task.updated_at <;>
        by_cases hC : (get_branch_state env ("task-" ++ toString task.id)
            (recon_base_branch task) = BranchState.merged ∨
          get_branch_state env ("task-" ++ toString task.id)
            (recon_base_branch task) = BranchState.missing) <;>
          simp [reconcile_task, hws, hc, hA, hB, hC]

/-- C1 counterexample to the claim as stated: a reconciler pass over a
Local workspace does change Task.status. A ToBeReview task (id 7, base
branch main, last updated 100 seconds ago, no recorded worktree) whose
task-7 branch has been merged into main is auto-advanced to Done rather
than left for explicit user action. -/
theorem c1_counterexample :
    (reconcile_task
      ⟨fun _ => false, fun _ => false, fun _ => false,
       fun b => b = "task-7" || b = "main", fun _ _ => 0⟩
      100 ⟨WorkspaceType.LOCAL, "/repo"⟩
      ⟨7, TaskStatus.TO_BE_REVIEW, "p", ["p"], none, none, none, some "main", 0⟩).status
      = TaskStatus.DONE ∧
    TaskStatus.DONE ≠ TaskStatus.TO_BE_REVIEW := by
  constructor
  · decide
  · intro h
    cases h

/-- C1 (amended): for every Task not in Running whose Workspace is
Local, a reconciler pass repairs stale worktree_path references
(clearing the field and bumping updated_at); it leaves the status of
every non-ToBeReview task unchanged; in a pass whose repair step fires,
the fresh re-read autoflushes the repair, the updated_at onupdate hook
resets the 60 second clock, and the task keeps its status, deferring
any auto-close to a later pass; in a pass with no repair, a ToBeReview
task is auto-advanced to Done, with its worktree reference cleared,
exactly when its last update is at least 60 seconds old and its task-id
branch is merged into the base branch or missing; it is left in
ToBeReview when it was updated within the last 60 seconds or when its
branch exists unmerged; non-Local workspaces are skipped entirely. -/
theorem c1_reconciler_autoclose (env : ReconEnv) (now : Int)
    (ws : ReconWorkspace) (task : DbTask) :
    let r := reconcile_task env now ws task
    (ws.workspace_type ≠ WorkspaceType.LOCAL → r = task) ∧
    (task.status ≠ TaskStatus.TO_BE_REVIEW → r.status = task.status) ∧
    (task.status = TaskStatus.TO_BE_REVIEW → now - task.updated_at < 60 →
      r.status = TaskStatus.TO_BE_REVIEW) ∧
    (ws.workspace_type = WorkspaceType.LOCAL →
      recon_step1_changed env task = false →
      task.status = TaskStatus.TO_BE_REVIEW → 60 ≤ now - task.updated_at →
      (get_branch_state env ("task-" ++ toString task.id) (recon_base_branch task) =
          BranchState.merged ∨
        get_branch_state env ("task-" ++ toString task.id) (recon_base_branch task) =
          BranchState.missing) →
      r.status = TaskStatus.DONE ∧ r.worktree_path = none ∧ r.updated_at = now) ∧
    (ws.workspace_type = WorkspaceType.LOCAL →
      recon_step1_changed env task = true →
      r.status = task.status ∧ r.worktree_path = none ∧ r.updated_at = now) ∧
    (task.status = TaskStatus.TO_BE_REVIEW →
      get_branch_state env ("task-" ++ toString task.id) (recon_base_branch task) =
        BranchState.not_merged →
      r.status = TaskStatus.TO_BE_REVIEW) ∧
    (ws.workspace_type = WorkspaceType.LOCAL →
      recon_step1_changed env task = false →
      task.status ≠ TaskStatus.TO_BE_REVIEW → r = task) := by
  by_cases hws : ws.workspace_type = WorkspaceType.LOCAL
  · rw [reconcile_task_local_eq env now ws task hws]
    refine ⟨fun h => absurd hws h, ?_, ?_, ?_, ?_, ?_, ?_⟩
    · intro hst
      by_cases hc : recon_step1_changed env task = true
      · rw [if_pos hc]
      · have hA : ¬ (task.status = TaskStatus.TO_BE_REVIEW ∧ 60 ≤ now - task.updated_at ∧
            (get_branch_state env ("task-" ++ toString task.id) (recon_base_branch task) =
                BranchState.merged ∨
              get_branch_state env ("task-" ++ toString task.id) (recon_base_branch task) =
                BranchState.missing)) :=
          fun h => hst h.1
        rw [if_neg hc, if_neg hA]
    · intro hst hlt
      by_cases hc : recon_step1_changed env task = true
      · rw [if_pos hc]
        exact hst
      · have hA : ¬ (task.status = TaskStatus.TO_BE_REVIEW ∧ 60 ≤ now - task.updated_at ∧
            (get_branch_state env ("task-" ++ toString task.id) (recon_base_branch task) =
                BranchState.merged ∨
              get_branch_state env ("task-" ++ toString task.id) (recon_base_branch task) =
                BranchState.missing)) :=
          fun h => by omega
        rw [if_neg hc, if_neg hA]
        exact hst
    · intro _ hc hst hge hbr
      have hc' : ¬ (recon_step1_changed env task = true) := by
        intro h
        rw [hc] at h
        cases h
      rw [if_neg hc', if_pos ⟨hst, hge, hbr⟩]
      exact ⟨rfl, rfl, rfl⟩
    · intro _ hc
      rw [if_pos hc]
      exact ⟨rfl, rfl, rfl⟩
    · intro hst hbr
      by_cases hc : recon_step1_changed env task = true
      · rw [if_pos hc]
        exact hst
      · have hA : ¬ (task.status = TaskStatus.TO_BE_REVIEW ∧ 60 ≤ now - task.updated_at ∧
            (get_branch_state env ("task-" ++ toString task.id) (recon_base_branch task) =
                BranchState.merged ∨
              get_branch_state env ("task-" ++ toString task.id) (recon_base_branch task) =
                BranchState.missing)) := by
          rintro ⟨-, -, h | h⟩ <;> rw [hbr] at h <;> cases h
        rw [if_neg hc, if_neg hA]
        exact hst
    · intro _ hc hst
      have hc' : ¬ (recon_step1_changed env task = true) := by
        intro h
        rw [hc] at h
        cases h
      have hA : ¬ (task.status = TaskStatus.TO_BE_REVIEW ∧ 60 ≤ now - task.updated_at ∧
          (get_branch_state env ("task-" ++ toString task.id) (recon_base_branch task) =
              BranchState.merged ∨
            get_branch_state env ("task-" ++ toString task.id) (recon_base_branch task) =
              BranchState.missing)) :=
        fun h => hst h.1
      rw [if_neg hc', if_neg hA]
  · have hskip : reconcile_task env now ws task = task := by
      simp [reconcile_task, hws]
    refine ⟨fun _ => hskip, ?_, ?_, ?_, ?_, ?_, ?_⟩ <;>
      simp_all [hskip]

/-- Witness for c1_reconciler_autoclose: a concrete ToBeReview task
with no recorded worktree, a merged branch and an old updated_at is
auto-closed to Done in the same pass. -/
theorem c1_reconciler_autoclose_witness :
    (reconcile_task
      ⟨fun _ => false, fun _ => false, fun _ => false,
       fun b => b = "task-8" || b = "main", fun _ _ => 0⟩
      200 ⟨WorkspaceType.LOCAL, "/repo"⟩
      ⟨8, TaskStatus.TO_BE_REVIEW, "p", ["p"], none, none, none, none, 0⟩).status
      = TaskStatus.DONE := by
  have h := c1_reconciler_autoclose
    ⟨fun _ => false, fun _ => false, fun _ => false,
     fun b => b = "task-8" || b = "main", fun _ _ => 0⟩
    200 ⟨WorkspaceType.LOCAL, "/repo"⟩
    ⟨8, TaskStatus.TO_BE_REVIEW, "p", ["p"], none, none, none, none, 0⟩
  exact (h.2.2.2.1 rfl rfl rfl (by decide) (Or.inl (by decide))).1

/-- A literal match at the head of a text is in particular a substring
occurrence. -/
theorem lit_pre_contains_sub {w : List Char} : ∀ {t : List Char},
    lit_pre w t = true → contains_sub w t = true := by
  intro t h
  cases t with
  | nil => simpa [contains_sub] using h
  | cons c rest => simp [contains_sub, h]

/-- Substring containment is preserved by extending the text on the left. -/
theorem contains_sub_cons {w : List Char} (c : Char) {t : List Char}
    (h : contains_sub w t = true) : contains_sub w (c :: t) = true := by
  simp [contains_sub, h]

/-- Substring containment in a dropped tail gives containment in the text. -/
theorem contains_sub_of_drop {w : List Char} : ∀ (t : List Char) (k : Nat),
    contains_sub w (t.drop k) = true → contains_sub w t = true
  | _, 0, h => by simpa using h
  | [], _ + 1, h => by simpa using h
  | c :: rest, k + 1, h => contains_sub_cons c (contains_sub_of_drop rest k h)

/-- A match of the first 429 pattern contains one of its keywords as a
substring. -/
theorem match1_go_imp : ∀ (t : List Char) (pw : Bool), match1_go pw t = true →
    ∃ w ∈ kw429, contains_sub w t = true := by
  intro t
  induction t with
  | nil => intro pw h; simp [match1_go] at h
  | cons c rest ih =>
    intro pw h
    rw [match1_go, Bool.or_eq_true] at h
    rcases h with h1 | h2
    · simp only [Bool.and_eq_true] at h1
      have hat := h1.2
      rw [match1_at, List.any_eq_true] at hat
      obtain ⟨w, hw, hwp⟩ := hat
      simp only [Bool.and_eq_true] at hwp
      exact ⟨w, hw, lit_pre_contains_sub hwp.1⟩
    · obtain ⟨w, hw, hc⟩ := ih (is_word_char c) h2
      exact ⟨w, hw, contains_sub_cons c hc⟩

/-- A successful phrase search contains one of the quota phrases as a
substring. -/
theorem search_phrase_imp : ∀ (t : List Char) (pw : Bool),
    search_phrase pw t = true → ∃ w ∈ quota_tail_phrases, contains_sub w t = true := by
  intro t
  induction t with
  | nil => intro pw h; simp [search_phrase] at h
  | cons c rest ih =>
    intro pw h
    rw [search_phrase, Bool.or_eq_true] at h
    rcases h with h1 | h2
    · simp only [Bool.and_eq_true] at h1
      have hat := h1.2
      rw [phrase_at, List.any_eq_true] at hat
      obtain ⟨w, hw, hwp⟩ := hat
      simp only [Bool.and_eq_true] at hwp
      exact ⟨w, hw, lit_pre_contains_sub hwp.1⟩
    · by_cases hc : c = '\n'
      · rw [if_pos hc] at h2; cases h2
      · rw [if_neg hc] at h2
        obtain ⟨w, hw, hcon⟩ := ih (is_word_char c) h2
        exact ⟨w, hw, contains_sub_cons c hcon⟩

/-- A match of the second 429 pattern contains one of the quota phrases
as a substring. -/
theorem match2_go_imp : ∀ (t : List Char) (pw : Bool), match2_go pw t = true →
    ∃ w ∈ quota_tail_phrases, contains_sub w t = true := by
  intro t
  induction t with
  | nil => intro pw h; simp [match2_go] at h
  | cons c rest ih =>
    intro pw h
    rw [match2_go, Bool.or_eq_true] at h
    rcases h with h1 | h2
    · simp only [Bool.and_eq_true] at h1
      have hs : search_phrase true ((c :: rest).drop 3) = true := h1.2
      obtain ⟨w, hw, hcon⟩ := search_phrase_imp _ _ hs
      exact ⟨w, hw, contains_sub_of_drop _ 3 hcon⟩
    · obtain ⟨w, hw, hcon⟩ := ih (is_word_char c) h2
      exact ⟨w, hw, contains_sub_cons c hcon⟩

/-- C8: the Copilot quota scan does not fire on the plain file reference
line (429 appears only as a bare number), does fire on an HTTP 429
rate-limit line, and never fires on any line whose casefolded text
contains none of the quota keyword phrases, none of the 429 prefix words
http, status, error, code, and not the word quota, however many bare
occurrences of 429 it holds. -/
theorem c8_copilot_quota_scan :
    scan_for_quota_keywords "Read docs/FRONTEND.md lines 429-431" = false ∧
    scan_for_quota_keywords "HTTP 429 Too Many Requests" = true ∧
    (∀ s : String,
      (∀ w ∈ quota_phrases, contains_sub w (s.data.map Char.toLower) = false) →
      (∀ w ∈ kw429, contains_sub w (s.data.map Char.toLower) = false) →
      contains_sub "quota".data (s.data.map Char.toLower) = false →
      scan_for_quota_keywords s = false) := by
  refine ⟨by decide, by decide, ?_⟩
  intro s hphr hkw hq
  have h1 : quota_phrases.any
      (fun kw => contains_sub kw (s.data.map Char.toLower)) = false := by
    cases hcon : quota_phrases.any
        (fun kw => contains_sub kw (s.data.map Char.toLower)) with
    | false => rfl
    | true =>
      obtain ⟨w, hw, hp⟩ := List.any_eq_true.mp hcon
      rw [hphr w hw] at hp
      cases hp
  have h2 : match1 (s.data.map Char.toLower) = false := by
    cases hcon : match1 (s.data.map Char.toLower) with
    | false => rfl
    | true =>
      obtain ⟨w, hw, hp⟩ := match1_go_imp _ _ hcon
      rw [hkw w hw] at hp
      cases hp
  have h3 : match2 (s.data.map Char.toLower) = false := by
    cases hcon : match2 (s.data.map Char.toLower) with
    | false => rfl
    | true =>
      obtain ⟨w, hw, hp⟩ := match2_go_imp _ _ hcon
      have hw' : w = "too many requests".data ∨ w = "rate limit".data ∨
          w = "quota".data := by
        simpa [quota_tail_phrases] using hw
      rcases hw' with hw' | hw' | hw'
      · rw [hphr w (by rw [hw']; decide)] at hp; cases hp
      · rw [hphr w (by rw [hw']; decide)] at hp; cases hp
      · rw [hw'] at hp; rw [hq] at hp; cases hp
  simp only [scan_for_quota_keywords]
  rw [h1, h2, h3]
  rfl

/-- Witness for c8_copilot_quota_scan: a line holding only a bare 429
does not raise the quota flag. -/
theorem c8_copilot_quota_scan_witness :
    scan_for_quota_keywords "429" = false :=
  c8_copilot_quota_scan.2.2 "429" (by decide) (by decide) (by decide)

/-- Code point comparison of strings is total. -/
theorem str_le_total : ∀ a b : List Char, (str_le a b || str_le b a) = true := by
  intro a
  induction a with
  | nil => intro b; simp [str_le]
  | cons x xs ih =>
    intro b
    cases b with
    | nil => simp [str_le]
    | cons y ys =>
      by_cases hxy : x.toNat = y.toNat
      · have hyx : y.toNat = x.toNat := hxy.symm
        simp only [str_le, if_pos hxy, if_pos hyx]
        exact ih ys
      · have hyx : ¬ y.toNat = x.toNat := fun h => hxy h.symm
        simp only [str_le, if_neg hxy, if_neg hyx, Bool.or_eq_true,
          decide_eq_true_eq]
        omega

/-- Code point comparison of strings is transitive. -/
theorem str_le_trans : ∀ a b c : List Char,
    str_le a b = true → str_le b c = true → str_le a c = true := by
  intro a
  induction a with
  | nil => intro b c _ _; simp [str_le]
  | cons x xs ih =>
    intro b c hab hbc
    cases b with
    | nil => simp [str_le] at hab
    | cons y ys =>
      cases c with
      | nil => simp [str_le] at hbc
      | cons z zs =>
        by_cases h1 : x.toNat = y.toNat <;> by_cases h2 : y.toNat = z.toNat
        · rw [str_le, if_pos h1] at hab
          rw [str_le, if_pos h2] at hbc
          rw [str_le, if_pos (h1.trans h2)]
          exact ih ys zs hab hbc
        · rw [str_le, if_neg h2, decide_eq_true_eq] at hbc
          have hxz : x.toNat < z.toNat := by omega
          rw [str_le, if_neg (by omega), decide_eq_true_eq]
          exact hxz
        · rw [str_le, if_neg h1, decide_eq_true_eq] at hab
          have hxz : x.toNat < z.toNat := by omega
          rw [str_le, if_neg (by omega), decide_eq_true_eq]
          exact hxz
        · rw [str_le, if_neg h1, decide_eq_true_eq] at hab
          rw [str_le, if_neg h2, decide_eq_true_eq] at hbc
          have hxz : x.toNat < z.toNat := by omega
          rw [str_le, if_neg (by omega), decide_eq_true_eq]
          exact hxz

/-- The sort key order on scored entries is transitive. -/
theorem score_pair_ord_trans : ∀ a b c : Nat × String,
    score_pair_ord a b → score_pair_ord b c → score_pair_ord a c := by
  rintro a b c (h1 | ⟨h1, h1s⟩) (h2 | ⟨h2, h2s⟩)
  · exact Or.inl (by omega)
  · exact Or.inl (by omega)
  · exact Or.inl (by omega)
  · exact Or.inr ⟨by omega, str_le_trans _ _ _ h1s h2s⟩

/-- The sort key order on scored entries is total. -/
theorem score_pair_ord_total : ∀ a b : Nat × String,
    score_pair_ord a b ∨ score_pair_ord b a := by
  intro a b
  rcases Nat.lt_trichotomy a.1 b.1 with h | h | h
  · exact Or.inr (Or.inl h)
  · have := str_le_total a.2.data b.2.data
    rw [Bool.or_eq_true] at this
    rcases this with hs | hs
    · exact Or.inl (Or.inr ⟨h, hs⟩)
    · exact Or.inr (Or.inr ⟨h.symm, hs⟩)
  · exact Or.inl (Or.inl h)

/-- The literal head match decides the prefix relation. -/
theorem lit_pre_iff : ∀ q s : List Char, lit_pre q s = true ↔ q <+: s := by
  intro q
  induction q with
  | nil => intro s; simp [lit_pre, List.nil_prefix]
  | cons a as ih =>
    intro s
    cases s with
    | nil => simp [lit_pre]
    | cons b bs =>
      rw [List.cons_prefix_cons]
      simp [lit_pre, Bool.and_eq_true, decide_eq_true_eq, ih bs]

/-- The substring scan decides the infix relation. -/
theorem contains_sub_iff : ∀ (q s : List Char), contains_sub q s = true ↔ q <:+: s := by
  intro q s
  induction s with
  | nil => simp [contains_sub, lit_pre_iff]
  | cons c rest ih =>
    rw [List.infix_cons_iff]
    simp only [contains_sub, Bool.or_eq_true, lit_pre_iff, ih]

/-- The greedy pointer loop empties the query exactly when the query is
a subsequence of the text. -/
theorem subseq_rest_nil_iff : ∀ (s q : List Char),
    subseq_rest q s = [] ↔ List.Sublist q s := by
  intro s
  induction s with
  | nil =>
    intro q
    rw [List.sublist_nil]
    cases q <;> simp [subseq_rest]
  | cons c rest ih =>
    intro q
    cases q with
    | nil => simp [subseq_rest, List.nil_sublist]
    | cons qc qrest =>
      by_cases h : qc = c
      · subst h
        rw [show subseq_rest (qc :: qrest) (qc :: rest) = subseq_rest qrest rest by
          simp [subseq_rest]]
        rw [ih qrest, List.cons_sublist_cons]
      · simp only [subseq_rest, if_neg h]
        rw [ih (qc :: qrest), List.sublist_cons_iff]
        constructor
        · exact Or.inl
        · rintro (hs | ⟨r, hr, hrs⟩)
          · exact hs
          · exfalso
            apply h
            injection hr

/-- The pointer-based subsequence test decides the sublist relation. -/
theorem is_subseq_iff (q s : List Char) : is_subseq q s = true ↔ List.Sublist q s := by
  rw [is_subseq, List.isEmpty_iff]
  exact subseq_rest_nil_iff s q

/-- C9: the fuzzy score computed by the code coincides with the
specification's cascade (1 for the empty query, 1000 for an exact
basename or stem match, 900 for a prefix, 700 for a substring of the
basename, 500 for a substring of the path, 300 for a subsequence of the
basename, 100 for a subsequence of the path, 0 otherwise, all
casefolded), files scoring 0 are excluded from the suggestion list, the
list is sorted by descending score with ties in ascending code-point
path order, and at most limit entries are returned. -/
theorem c9_fuzzy_scoring (rel_path query : String) (files : List String)
    (limit : Nat) :
    fuzzy_score rel_path query = spec_fuzzy_score rel_path query ∧
    (∀ r ∈ list_files_local files query limit, 0 < fuzzy_score r query) ∧
    (list_files_local files query limit).Pairwise (fun a b =>
      fuzzy_score b query < fuzzy_score a query ∨
        (fuzzy_score a query = fuzzy_score b query ∧ str_le a.data b.data = true)) ∧
    (list_files_local files query limit).length ≤ limit := by
  have hkey : ∀ p ∈ (List.insertionSort score_pair_ord
      ((files.map (fun rel => (fuzzy_score rel query, rel))).filter
        (fun p => decide (0 < p.1)))).take limit,
      p.1 = fuzzy_score p.2 query ∧ 0 < p.1 := by
    intro p hp
    have hp1 : p ∈ List.insertionSort score_pair_ord
        ((files.map (fun rel => (fuzzy_score rel query, rel))).filter
          (fun p => decide (0 < p.1))) :=
      (List.take_sublist _ _).subset hp
    have hp2 := (List.perm_insertionSort score_pair_ord _).mem_iff.mp hp1
    rw [List.mem_filter] at hp2
    obtain ⟨hmem, hpred⟩ := hp2
    rw [List.mem_map] at hmem
    obtain ⟨rel, _, hrel⟩ := hmem
    constructor
    · rw [← hrel]
    · exact of_decide_eq_true hpred
  refine ⟨?_, ?_, ?_, ?_⟩
  · by_cases hq : query = ""
    · simp [fuzzy_score, spec_fuzzy_score, hq]
    · simp only [fuzzy_score, spec_fuzzy_score, if_neg hq, Bool.or_eq_true,
        lit_pre_iff, contains_sub_iff, is_subseq_iff]
  · intro r hr
    rw [list_files_local, List.mem_map] at hr
    obtain ⟨p, hp, hpr⟩ := hr
    have := hkey p hp
    rw [← hpr, ← this.1]
    exact this.2
  · rw [list_files_local]
    haveI : IsTotal (Nat × String) score_pair_ord := ⟨score_pair_ord_total⟩
    haveI : IsTrans (Nat × String) score_pair_ord := ⟨score_pair_ord_trans⟩
    have hsorted : ((files.map (fun rel => (fuzzy_score rel query, rel))).filter
        (fun p => decide (0 < p.1))).insertionSort score_pair_ord
          |>.Pairwise score_pair_ord :=
      List.sorted_insertionSort score_pair_ord _
    have htake := List.Pairwise.sublist (List.take_sublist limit _) hsorted
    rw [List.pairwise_map]
    refine List.Pairwise.imp_of_mem ?_ htake
    intro a b ha hb hab
    have hka := hkey a ha
    have hkb := hkey b hb
    rcases hab with h | ⟨heq, hstr⟩
    · left
      rw [← hka.1, ← hkb.1]
      exact h
    · right
      refine ⟨?_, hstr⟩
      rw [← hka.1, ← hkb.1]
      exact heq
  · rw [list_files_local]
    simp only [List.length_map, List.length_take]
    exact min_le_left _ _

/-- Witness for c9_fuzzy_scoring at a concrete listing: the returned
entry has a positive score. -/
theorem c9_fuzzy_scoring_witness : 0 < fuzzy_score "a.py" "a" := by
  have h := c9_fuzzy_scoring "x" "a" ["a.py"] 5
  exact h.2.1 "a.py" (by decide)

/-- Reduction helper for the one-zero indicator of a true condition. -/
theorem ite_tt : (if (true = true) then (1 : Nat) else 0) = 1 := rfl

/-- Reduction helper for the one-zero indicator of a false condition. -/
theorem ite_ff : (if (false = true) then (1 : Nat) else 0) = 0 := rfl

/-- Counting after a map-by-id update on a task list with unique ids:
only the updated row's predicate value can change, by exactly the
difference between its old and new value. -/
theorem countP_map_by_id (t : SchedTask) (g : SchedTask → SchedTask)
    (q : SchedTask → Bool) :
    ∀ l : List SchedTask, t ∈ l → (l.map (fun u => u.id)).Nodup →
    (l.map (fun u => if u.id = t.id then g u else u)).countP q +
        (if q t then 1 else 0) =
      l.countP q + (if q (g t) then 1 else 0) := by
  intro l
  induction l with
  | nil => intro hmem; cases hmem
  | cons u rest ih =>
    intro hmem hnd
    rw [List.map_cons, List.nodup_cons] at hnd
    rw [List.map_cons, List.countP_cons, List.countP_cons]
    by_cases hid : u.id = t.id
    · have hut : t = u := by
        rcases List.mem_cons.mp hmem with h | h
        · exact h
        · exact absurd (hid ▸ List.mem_map_of_mem (fun v => v.id) h) hnd.1
      subst hut
      rw [if_pos rfl]
      have hrest : rest.map (fun v => if v.id = t.id then g v else v) = rest := by
        have hcongr : rest.map (fun v => if v.id = t.id then g v else v) =
            rest.map id :=
          List.map_congr_left (fun v hv => by
            simp only [id]
            rw [if_neg]
            intro hvt
            exact hnd.1 (hvt ▸ List.mem_map_of_mem (fun x => x.id) hv))
        rw [hcongr, List.map_id]
      rw [hrest]
      cases hq1 : q t <;> cases hq2 : q (g t) <;>
        simp only [ite_tt, ite_ff] <;> omega
    · rw [if_neg hid]
      have hmem' : t ∈ rest := by
        rcases List.mem_cons.mp hmem with h | h
        · exact absurd (by rw [h]) hid
        · exact h
      have hrec := ih hmem' hnd.2
      omega

/-- Counting is monotone under a map that never turns the predicate on. -/
theorem countP_map_le (g : SchedTask → SchedTask) (q : SchedTask → Bool) :
    ∀ l : List SchedTask, (∀ u ∈ l, q (g u) = true → q u = true) →
      (l.map g).countP q ≤ l.countP q := by
  intro l
  induction l with
  | nil => intro _; simp
  | cons u rest ih =>
    intro h
    rw [List.map_cons, List.countP_cons, List.countP_cons]
    have hrec := ih (fun v hv => h v (List.mem_cons_of_mem u hv))
    have hmono : (if q (g u) = true then (1 : Nat) else 0) ≤
        (if q u = true then 1 else 0) := by
      cases hqg : q (g u) with
      | false => simp
      | true => rw [h u (List.mem_cons_self u rest) hqg]
    exact Nat.add_le_add hrec hmono

/-- Inversion of a successful dispatch: every admission gate passed and
the committed state moved exactly the dispatched task to Running. -/
theorem try_dispatch_task_some {s : SchedState} {tid : Nat} {s' : SchedState}
    (h : try_dispatch_task s tid = some s') :
    ∃ t w r, s.tasks.find? (fun u => u.id == tid) = some t ∧
      s.workspaces.find? (fun v => v.workspace_id == t.workspace_id) = some w ∧
      s.runners.find? (fun v => v.runner_id == w.runner_id) = some r ∧
      running_count_ws s w.workspace_id < max 1 w.concurrency_limit ∧
      r.status = RunnerStatus.ONLINE ∧
      t.backend ∈ r.capabilities ∧
      running_count_runner s r.runner_id < max 1 r.max_parallel ∧
      t.status = TaskStatus.TODO ∧
      s' = { s with tasks := set_task_running s.tasks tid } := by
  rw [try_dispatch_task] at h
  rcases hft : s.tasks.find? (fun u => u.id == tid) with _ | t
  · simp only [hft] at h
    cases h
  · simp only [hft] at h
    rcases hfw : s.workspaces.find? (fun v => v.workspace_id == t.workspace_id) with _ | w
    · simp only [hfw] at h
      cases h
    · simp only [hfw] at h
      by_cases hc1 : max 1 w.concurrency_limit ≤ running_count_ws s w.workspace_id
      · rw [if_pos hc1] at h; cases h
      · rw [if_neg hc1] at h
        rcases hfr : s.runners.find? (fun v => v.runner_id == w.runner_id) with _ | r
        · simp only [hfr] at h
          cases h
        · simp only [hfr] at h
          by_cases hc2 : r.status ≠ RunnerStatus.ONLINE
          · rw [if_pos hc2] at h; cases h
          · rw [if_neg hc2] at h
            by_cases hc3 : ¬ t.backend ∈ r.capabilities
            · rw [if_pos hc3] at h; cases h
            · rw [if_neg hc3] at h
              by_cases hc4 : max 1 r.max_parallel ≤ running_count_runner s r.runner_id
              · rw [if_pos hc4] at h; cases h
              · rw [if_neg hc4] at h
                by_cases hc5 : t.status ≠ TaskStatus.TODO
                · rw [if_pos hc5] at h; cases h
                · rw [if_neg hc5] at h
                  refine ⟨t, w, r, hft, hfw, hfr, by omega, by tauto, by tauto,
                    by omega, by tauto, (Option.some.inj h).symm⟩

/-- A map-by-id status update leaves the id column unchanged. -/
theorem map_id_column (l : List SchedTask) (tid : Nat) (st : TaskStatus) :
    (l.map (fun u => if u.id = tid then { u with status := st } else u)).map
        (fun u => u.id) =
      l.map (fun u => u.id) := by
  rw [List.map_map]
  apply List.map_congr_left
  intro u _
  by_cases hu : u.id = tid <;> simp [Function.comp, hu]

/-- Every scheduler-relevant transition preserves primary key integrity
and the concurrency invariant. -/
theorem sched_step_preserves {s s' : SchedState} (hstep : SchedStep s s')
    (hwf : sched_wf s) (hinv : sched_inv s) : sched_wf s' ∧ sched_inv s' := by
  cases hstep with
  | dispatch tid s' h =>
    obtain ⟨t, w, r, hft, hfw, hfr, hcw, hron, hcap, hcr, htodo, hs'⟩ :=
      try_dispatch_task_some h
    subst hs'
    have htmem : t ∈ s.tasks := List.mem_of_find?_eq_some hft
    have htid : t.id = tid := by simpa using List.find?_some hft
    have hwmem : w ∈ s.workspaces := List.mem_of_find?_eq_some hfw
    have hwid : w.workspace_id = t.workspace_id := by simpa using List.find?_some hfw
    have hrmem : r ∈ s.runners := List.mem_of_find?_eq_some hfr
    have hrid : r.runner_id = w.runner_id := by simpa using List.find?_some hfr
    have hset : set_task_running s.tasks tid =
        s.tasks.map (fun u =>
          if u.id = t.id then { u with status := TaskStatus.RUNNING } else u) := by
      rw [set_task_running, htid]
    refine ⟨⟨?_, hwf.2.1, hwf.2.2⟩, ?_, ?_⟩
    · show ((set_task_running s.tasks tid).map (fun u => u.id)).Nodup
      rw [set_task_running, map_id_column]
      exact hwf.1
    · intro w'' hw''
      show (set_task_running s.tasks tid).countP (ws_pred w''.workspace_id) ≤
        max 1 w''.concurrency_limit
      have hkey := countP_map_by_id t
        (fun u => { u with status := TaskStatus.RUNNING })
        (ws_pred w''.workspace_id) s.tasks htmem hwf.1
      beta_reduce at hkey
      have hq_t : ws_pred w''.workspace_id t = false := by
        simp [ws_pred, htodo]
      rw [hq_t, ite_ff] at hkey
      by_cases hww : t.workspace_id = w''.workspace_id
      · have hw''w : w'' = w := by
          apply List.inj_on_of_nodup_map hwf.2.1 hw'' hwmem
          show w''.workspace_id = w.workspace_id
          rw [hwid]
          exact hww.symm
        have hq_gt : ws_pred w''.workspace_id
            { t with status := TaskStatus.RUNNING } = true := by
          simp [ws_pred, hww]
        rw [hq_gt, ite_tt] at hkey
        rw [hset]
        subst hw''w
        have hcount : running_count_ws s w''.workspace_id =
            s.tasks.countP (ws_pred w''.workspace_id) := rfl
        rw [hcount] at hcw
        omega
      · have hq_gt : ws_pred w''.workspace_id
            { t with status := TaskStatus.RUNNING } = false := by
          simp [ws_pred, hww]
        rw [hq_gt, ite_ff] at hkey
        rw [hset]
        have hbound := hinv.1 w'' hw''
        have hcount : running_count_ws s w''.workspace_id =
            s.tasks.countP (ws_pred w''.workspace_id) := rfl
        rw [hcount] at hbound
        omega
    · intro r'' hr''
      show (set_task_running s.tasks tid).countP
          (runner_pred s.workspaces r''.runner_id) ≤ max 1 r''.max_parallel
      have hkey := countP_map_by_id t
        (fun u => { u with status := TaskStatus.RUNNING })
        (runner_pred s.workspaces r''.runner_id) s.tasks htmem hwf.1
      beta_reduce at hkey
      have hq_t : runner_pred s.workspaces r''.runner_id t = false := by
        simp [runner_pred, htodo]
      rw [hq_t, ite_ff] at hkey
      by_cases hrr : w.runner_id = r''.runner_id
      · have hr''r : r'' = r := by
          apply List.inj_on_of_nodup_map hwf.2.2 hr'' hrmem
          show r''.runner_id = r.runner_id
          rw [hrid]
          exact hrr.symm
        have hq_gt : runner_pred s.workspaces r''.runner_id
            { t with status := TaskStatus.RUNNING } = true := by
          simp [runner_pred, hfw, hrr]
        rw [hq_gt, ite_tt] at hkey
        rw [hset]
        subst hr''r
        have hcount : running_count_runner s r''.runner_id =
            s.tasks.countP (runner_pred s.workspaces r''.runner_id) := rfl
        rw [hcount] at hcr
        omega
      · have hq_gt : runner_pred s.workspaces r''.runner_id
            { t with status := TaskStatus.RUNNING } = false := by
          simp [runner_pred, hfw, hrr]
        rw [hq_gt, ite_ff] at hkey
        rw [hset]
        have hbound := hinv.2 r'' hr''
        have hcount : running_count_runner s r''.runner_id =
            s.tasks.countP (runner_pred s.workspaces r''.runner_id) := rfl
        rw [hcount] at hbound
        omega
  | set_status tid st hne =>
    refine ⟨⟨?_, hwf.2.1, hwf.2.2⟩, ?_, ?_⟩
    · show ((s.tasks.map (fun u =>
          if u.id = tid then { u with status := st } else u)).map
            (fun u => u.id)).Nodup
      rw [map_id_column]
      exact hwf.1
    · intro w'' hw''
      show (s.tasks.map (fun u =>
          if u.id = tid then { u with status := st } else u)).countP
            (ws_pred w''.workspace_id) ≤ max 1 w''.concurrency_limit
      have hle := countP_map_le
        (fun u => if u.id = tid then { u with status := st } else u)
        (ws_pred w''.workspace_id) s.tasks ?_
      · exact le_trans hle (hinv.1 w'' hw'')
      · intro u _ hq
        beta_reduce at hq
        by_cases hu : u.id = tid
        · rw [if_pos hu] at hq
          exfalso
          simp [ws_pred, hne] at hq
        · rwa [if_neg hu] at hq
    · intro r'' hr''
      show (s.tasks.map (fun u =>
          if u.id = tid then { u with status := st } else u)).countP
            (runner_pred s.workspaces r''.runner_id) ≤ max 1 r''.max_parallel
      have hle := countP_map_le
        (fun u => if u.id = tid then { u with status := st } else u)
        (runner_pred s.workspaces r''.runner_id) s.tasks ?_
      · exact le_trans hle (hinv.2 r'' hr'')
      · intro u _ hq
        beta_reduce at hq
        by_cases hu : u.id = tid
        · rw [if_pos hu] at hq
          exfalso
          simp [runner_pred, hne] at hq
        · rwa [if_neg hu] at hq
  | create t hst hfresh =>
    refine ⟨⟨?_, hwf.2.1, hwf.2.2⟩, ?_, ?_⟩
    · show ((s.tasks ++ [t]).map (fun u => u.id)).Nodup
      rw [List.map_append, List.nodup_append]
      refine ⟨hwf.1, by simp, ?_⟩
      intro a ha hb
      rw [List.mem_map] at ha
      obtain ⟨u, hu, hau⟩ := ha
      simp only [List.map_cons, List.map_nil, List.mem_singleton] at hb
      exact hfresh u hu (by rw [hau, hb])
    · intro w'' hw''
      show (s.tasks ++ [t]).countP (ws_pred w''.workspace_id) ≤
        max 1 w''.concurrency_limit
      rw [List.countP_append]
      have : ([t].countP (ws_pred w''.workspace_id)) = 0 := by
        simp [ws_pred, hst]
      rw [this]
      exact hinv.1 w'' hw''
    · intro r'' hr''
      show (s.tasks ++ [t]).countP (runner_pred s.workspaces r''.runner_id) ≤
        max 1 r''.max_parallel
      rw [List.countP_append]
      have : ([t].countP (runner_pred s.workspaces r''.runner_id)) = 0 := by
        simp [runner_pred, hst]
      rw [this]
      exact hinv.2 r'' hr''
  | remove tid hrun =>
    refine ⟨⟨?_, hwf.2.1, hwf.2.2⟩, ?_, ?_⟩
    · show ((s.tasks.filter (fun t => decide (t.id ≠ tid))).map
          (fun u => u.id)).Nodup
      exact List.Nodup.sublist
        (List.Sublist.map _ (List.filter_sublist s.tasks)) hwf.1
    · intro w'' hw''
      show (s.tasks.filter (fun t => decide (t.id ≠ tid))).countP
          (ws_pred w''.workspace_id) ≤ max 1 w''.concurrency_limit
      exact le_trans
        ((List.filter_sublist s.tasks).countP_le (ws_pred w''.workspace_id))
        (hinv.1 w'' hw'')
    · intro r'' hr''
      show (s.tasks.filter (fun t => decide (t.id ≠ tid))).countP
          (runner_pred s.workspaces r''.runner_id) ≤ max 1 r''.max_parallel
      exact le_trans
        ((List.filter_sublist s.tasks).countP_le
          (runner_pred s.workspaces r''.runner_id))
        (hinv.2 r'' hr'')
  | runner_update rid st =>
    refine ⟨⟨hwf.1, hwf.2.1, ?_⟩, hinv.1, ?_⟩
    · show ((s.runners.map (fun r =>
          if r.runner_id = rid then { r with status := st } else r)).map
            (fun r => r.runner_id)).Nodup
      rw [List.map_map]
      have : ((fun r : SchedRunner => r.runner_id) ∘ (fun r =>
          if r.runner_id = rid then { r with status := st } else r)) =
          (fun r : SchedRunner => r.runner_id) := by
        funext u
        by_cases hu : u.runner_id = rid <;> simp [Function.comp, hu]
      rw [this]
      exact hwf.2.2
    · intro r' hr'
      rw [List.mem_map] at hr'
      obtain ⟨r₀, h0, hr₀⟩ := hr'
      have hfields : r'.runner_id = r₀.runner_id ∧ r'.max_parallel = r₀.max_parallel := by
        rw [← hr₀]
        by_cases hu : r₀.runner_id = rid <;> simp [hu]
      have hcount : running_count_runner
          { s with runners := s.runners.map (fun r =>
            if r.runner_id = rid then { r with status := st } else r) }
          r'.runner_id = running_count_runner s r₀.runner_id := by
        rw [hfields.1]
        rfl
      rw [hcount, hfields.2]
      exact hinv.2 r₀ h0

/-- Reachability preserves primary key integrity and the concurrency
invariant. -/
theorem sched_reach_preserves {s₀ s : SchedState} (hreach : SchedReach s₀ s)
    (hwf : sched_wf s₀) (hinv : sched_inv s₀) : sched_wf s ∧ sched_inv s := by
  induction hreach with
  | refl => exact ⟨hwf, hinv⟩
  | tail _ _ _ hstep ih => exact sched_step_preserves hstep ih.1 ih.2

/-- C6: the scheduler dispatches a Todo task only when all admission
gates pass, so a task is not dispatched when its workspace's Running
count has reached the floored-at-1 concurrency limit, when its runner is
not Online or misses the backend capability, or when the runner's
Running count has reached the floored-at-1 max_parallel; consequently,
in every state reachable from a state satisfying the concurrency
invariant (under primary key integrity), every workspace's Running count
stays within max(1, concurrency_limit) and every runner's Running count
stays within max(1, max_parallel). -/
theorem c6_scheduler_admission :
    (∀ (s : SchedState) (tid : Nat) (t : SchedTask) (w : SchedWorkspace),
      s.tasks.find? (fun u => u.id == tid) = some t →
      s.workspaces.find? (fun v => v.workspace_id == t.workspace_id) = some w →
      (max 1 w.concurrency_limit ≤ running_count_ws s w.workspace_id ∨
        (∀ r, s.runners.find? (fun v => v.runner_id == w.runner_id) = some r →
          r.status ≠ RunnerStatus.ONLINE ∨ t.backend ∉ r.capabilities ∨
          max 1 r.max_parallel ≤ running_count_runner s r.runner_id)) →
      try_dispatch_task s tid = none) ∧
    (∀ s₀ s : SchedState, sched_wf s₀ → sched_inv s₀ → SchedReach s₀ s →
      sched_inv s) := by
  constructor
  · intro s tid t w hft hfw hgate
    cases hres : try_dispatch_task s tid with
    | none => rfl
    | some s' =>
      exfalso
      obtain ⟨t', w', r', hft', hfw', hfr', hcw, hron, hcap, hcr, _, _⟩ :=
        try_dispatch_task_some hres
      rw [hft] at hft'
      injection hft' with ht
      subst ht
      rw [hfw] at hfw'
      injection hfw' with hw
      subst hw
      rcases hgate with hg | hg
      · omega
      · rcases hg r' hfr' with hx | hx | hx
        · exact hx hron
        · exact hx hcap
        · omega
  · intro s₀ s hwf hinv hreach
    exact (sched_reach_preserves hreach hwf hinv).2

/-- Witness for c6_scheduler_admission: in a one-workspace state whose
concurrency limit 1 is already consumed by a Running task, the waiting
Todo task is not dispatched. -/
theorem c6_scheduler_admission_witness :
    try_dispatch_task
      ⟨[⟨1, 10, TaskStatus.RUNNING, "claude_code"⟩,
        ⟨2, 10, TaskStatus.TODO, "claude_code"⟩],
       [⟨10, 20, 1⟩],
       [⟨20, RunnerStatus.ONLINE, ["claude_code"], 5⟩]⟩ 2 = none := by
  apply c6_scheduler_admission.1
    ⟨[⟨1, 10, TaskStatus.RUNNING, "claude_code"⟩,
      ⟨2, 10, TaskStatus.TODO, "claude_code"⟩],
     [⟨10, 20, 1⟩],
     [⟨20, RunnerStatus.ONLINE, ["claude_code"], 5⟩]⟩ 2
    ⟨2, 10, TaskStatus.TODO, "claude_code"⟩ ⟨10, 20, 1⟩ rfl rfl
  exact Or.inl (by decide)
